import Mathlib

/-!
Verification of the RPC-correlation and resilient-produce subsystem of a
message-producing facade (the producer module of a rabbit layer library).

The JavaScript source is shallowly embedded: the module-level mutable
`amqpRPCQueues` table, the channel-close listeners and the uuid supply form an
explicit `ProducerState`; every channel / logger / timer side effect is recorded
as an `Event` in a trace; promise-returning functions become pure functions
returning their resolution value together with the updated state and trace.
The message codec (`message-parsers`, an external collaborator) is a parameter.
The run-time scheduling of the unbounded retry loop in `produce` is captured by
an explicit per-attempt outcome schedule (`List Bool`); the recursion of the
source is structural recursion on that schedule, a `none` result meaning the
promise is still pending beyond the modelled horizon (never a rejection).
-/

namespace RabbitLayer

/-- JavaScript runtime values, as far as payloads are concerned.  `nan` is kept
separate from `num` because `NaN` has its own truthiness. -/
inductive JsValue where
  | undef : JsValue
  | jsNull : JsValue
  | bool : Bool → JsValue
  | num : Int → JsValue
  | nan : JsValue
  | str : String → JsValue
  | obj : List (String × JsValue) → JsValue
deriving Repr, BEq

/-- JavaScript truthiness of a value (`!v` in the source negates this):
`undefined`, `null`, `false`, `0`, `NaN` and the empty string are falsy,
every object is truthy. -/
def JsValue.truthy : JsValue → Bool
  | .undef => false
  | .jsNull => false
  | .bool b => b
  | .num n => n != 0
  | .nan => false
  | .str s => s != ""
  | .obj _ => true

/-- `v` is falsy exactly when it is not truthy. -/
def JsValue.falsy (v : JsValue) : Bool := !v.truthy

/-- Serialized message bytes (what `parsers.out` produces and the channel
sends). -/
def Buffer := List Nat
deriving instance DecidableEq, Repr, BEq for Buffer

/-- Message options.  Fields a caller may omit are `Option`s; `rpc` mirrors a
truthiness test in the source so a plain `Bool` suffices. -/
structure Options where
  rpc : Bool := false
  routingKey : Option String := none
  persistent : Option Bool := none
  durable : Option Bool := none
  correlationId : Option String := none
  replyTo : Option String := none
deriving Repr, BEq

/-- Properties of a message delivered by the broker to the response-queue
consumer. -/
structure MsgProperties where
  correlationId : Option String := none
deriving Repr, BEq

/-- A raw message as delivered by the channel to a consumer callback. -/
structure RawMessage where
  properties : MsgProperties
  content : Buffer
deriving BEq

/-- The message codec (`message-parsers`), an external collaborator of the
core: a pure, synchronous transform.  `out` is `parsers.out(payload, options)`,
`decode` is `parsers.in(rawMessage)`. -/
structure Codec where
  out : JsValue → Options → Buffer
  decode : RawMessage → JsValue

/-- One entry of `amqpRPCQueues`: the response-queue name (`entry.queue`,
`null`/unset until the queue is created) and the set of correlation ids whose
deferred promises are stored on the entry (the dynamic `entry[corrId]` keys;
JavaScript object keys are unique, insertion below deduplicates
accordingly). -/
structure RpcEntry where
  queue : Option String := none
  pending : List String := []
deriving Repr, BEq, Inhabited

/-- A listener registered on the connection for its `close` event.  The source
registers with `conn.addListener`, Node's alias of `on`; a listener added that
way stays registered after it fires, unlike one added with `once`.  The flag
records which registration API was used, so that `emitClose` can remove
exactly the one-shot listeners. -/
structure CloseListener where
  queue : String
  once : Bool
deriving Repr, BEq

/-- The mutable state of the producer module: the module-level `amqpRPCQueues`
table (an association list keyed by destination queue name), the close
listeners registered on the connection, and a deterministic supply standing in
for `uuid.v4()` (the n-th generated id is `toString n`). -/
structure ProducerState where
  amqpRPCQueues : List (String × RpcEntry) := []
  closeListeners : List CloseListener := []
  uuidCounter : Nat := 0
deriving Repr, BEq

/-- Connection configuration the producer reads: `config.hostname` and
`config.timeout` (the retry delay in milliseconds). -/
structure Config where
  hostname : String
  timeout : Nat
deriving Repr, BEq

/-- Every externally visible side effect of the producer, in program order. -/
inductive Event where
  | assertQueue : String → Bool → Bool → Event     -- name, durable, exclusive
  | consume : String → Bool → Event                -- queue name, noAck
  | addCloseListener : String → Bool → Event       -- destination, once?
  | sendToQueue : String → Buffer → Options → Event
  | publish : String → String → Buffer → Options → Event
  | insertPending : String → String → Event        -- destination, corrId
  | resolvePending : String → String → JsValue → Event
  | logInfo : String → String → JsValue → Event    -- tag, direction, payload
  | logError : Event
  | wait : Nat → Event
deriving Repr, BEq

namespace Event

/-- The event is a routed send (`channel.sendToQueue` or `channel.publish`). -/
def isSend : Event → Bool
  | .sendToQueue _ _ _ => true
  | .publish _ _ _ _ => true
  | _ => false

/-- The event is the storage of a pending deferred under a correlation id. -/
def isInsert : Event → Bool
  | .insertPending _ _ => true
  | _ => false

/-- The event is an error log (`transport.error`). -/
def isErr : Event → Bool
  | .logError => true
  | _ => false

/-- The event is a retry delay (`utils.timeoutPromise`). -/
def isWait : Event → Bool
  | .wait _ => true
  | _ => false

/-- The buffer carried by a routed send, if the event is one. -/
def sendBuffer : Event → Option Buffer
  | .sendToQueue _ m _ => some m
  | .publish _ _ m _ => some m
  | _ => none

/-- The options carried by a routed send, if the event is one. -/
def sendOptions : Event → Option Options
  | .sendToQueue _ _ o => some o
  | .publish _ _ _ o => some o
  | _ => none

end Event

/-- Look up the `amqpRPCQueues` entry for a destination. -/
def lookupEntry (st : ProducerState) (queue : String) : Option RpcEntry :=
  (st.amqpRPCQueues.find? (fun p => p.1 == queue)).map Prod.snd

/-- The entry for a destination, defaulting to an empty one.  The source only
dereferences `amqpRPCQueues[queue]` at call sites where `checkRpc` has already
created the entry, so the default is never the observed behaviour there. -/
def entryOf (st : ProducerState) (queue : String) : RpcEntry :=
  (lookupEntry st queue).getD default

/-- The pending correlation ids registered for a destination. -/
def pendingOf (st : ProducerState) (queue : String) : List String :=
  (entryOf st queue).pending

/-- The cached response-queue name for a destination (`entry.queue`). -/
def respQueueOf (st : ProducerState) (queue : String) : Option String :=
  (entryOf st queue).queue

/-- Replace (or add) the entry stored under a destination key. -/
def updateAssoc : List (String × RpcEntry) → String → RpcEntry →
    List (String × RpcEntry)
  | [], queue, e => [(queue, e)]
  | (k, v) :: rest, queue, e =>
    if k == queue then (queue, e) :: rest else (k, v) :: updateAssoc rest queue e

/-- Store an entry for a destination. -/
def setEntry (st : ProducerState) (queue : String) (e : RpcEntry) :
    ProducerState :=
  { st with amqpRPCQueues := updateAssoc st.amqpRPCQueues queue e }

/-- `if (!amqpRPCQueues[queue]) amqpRPCQueues[queue] = {};` — create the entry
when absent (an empty object is truthy, so an existing entry is kept). -/
def ensureEntry (st : ProducerState) (queue : String) : ProducerState :=
  match lookupEntry st queue with
  | some _ => st
  | none => setEntry st queue {}

/-- `amqpRPCQueues[queue].queue = v` — update the response-queue name of an
existing entry (all callers run after the entry exists). -/
def setEntryQueue (st : ProducerState) (queue : String) (v : Option String) :
    ProducerState :=
  match lookupEntry st queue with
  | some e => setEntry st queue { e with queue := v }
  | none => st

/-- `amqpRPCQueues[queue][corrId] = Promise.defer()` — register a pending
deferred under a correlation id (object-key assignment: at most one slot per
key). -/
def insertPending (st : ProducerState) (queue corrId : String) : ProducerState :=
  let e := entryOf st queue
  setEntry st queue
    { e with pending := if corrId ∈ e.pending then e.pending else corrId :: e.pending }

/-- `delete amqpRPCQueues[queue][corrIdA]` — drop the pending deferred. -/
def removePending (st : ProducerState) (queue corrId : String) : ProducerState :=
  let e := entryOf st queue
  setEntry st queue { e with pending := e.pending.erase corrId }

/-- `createRpcQueue(queue)`: if the entry already holds a response-queue name,
resolve immediately (with `undefined`: `Promise.resolve()` carries no value).
Otherwise assert the queue `queue + ':' + hostname + ':res'` durable and
exclusive, store the asserted name, register a (persistent, `addListener`)
close listener clearing it, start a `noAck` consumer, and resolve with the
destination name `queue`.  Result, updated state, trace. -/
def createRpcQueue (cfg : Config) (st : ProducerState) (queue : String) :
    Option String × ProducerState × List Event :=
  match (entryOf st queue).queue with
  | some _ => (none, st, [])
  | none =>
    let resQueue := queue ++ ":" ++ cfg.hostname ++ ":res"
    let st := setEntryQueue st queue (some resQueue)
    let st := { st with
      closeListeners := st.closeListeners ++ [⟨queue, false⟩] }
    (some queue, st,
      [.assertQueue resQueue true true,
       .addCloseListener queue false,
       .consume resQueue true])

/-- The consumer callback built by `maybeAnswer(queue)`: if the delivered
message's correlation id has a pending deferred, decode the payload, resolve
the deferred with it, log the inbound event and delete the pending entry;
otherwise do nothing. -/
def maybeAnswer (c : Codec) (st : ProducerState) (queue : String)
    (m : RawMessage) : ProducerState × List Event :=
  match m.properties.correlationId with
  | none => (st, [])
  | some corrId =>
    if corrId ∈ pendingOf st queue then
      let decoded := c.decode m
      (removePending st queue corrId,
       [.resolvePending queue corrId decoded,
        .logInfo "amqp:producer" ("[" ++ queue ++ "] < ") decoded])
    else (st, [])

/-- `publishOrSendToQueue`: route to `channel.sendToQueue` when
`options.routingKey` is falsy (absent or the empty string), else to
`channel.publish` with that routing key.  Both resolve with the channel's
boolean write result, modelled as `true` on the success path. -/
def publishOrSendToQueue (queue : String) (msg : Buffer) (options : Options) :
    Bool × List Event :=
  match options.routingKey with
  | none => (true, [.sendToQueue queue msg options])
  | some rk =>
    if rk == "" then (true, [.sendToQueue queue msg options])
    else (true, [.publish queue rk msg options])

/-- What a produce call resolves with: the channel's write result for a plain
send, or — for RPC — the deferred registered under the generated correlation
id, which only `maybeAnswer` resolves. -/
inductive CheckRpcResult where
  | sendAck : Bool → CheckRpcResult
  | rpcPending : String → CheckRpcResult
deriving Repr, BEq

/-- `checkRpc(queue, msg, options)`: force `options.persistent = true`; in RPC
mode create the entry if absent, ensure the response queue, generate a fresh
correlation id, stamp `correlationId` and `replyTo`, perform the routed send
and only then store the pending deferred, resolving later with it; otherwise
just perform the routed send. -/
def checkRpc (cfg : Config) (st : ProducerState) (queue : String)
    (msg : Buffer) (options : Options) :
    CheckRpcResult × ProducerState × List Event :=
  let options := { options with persistent := some true }
  if options.rpc then
    let st := ensureEntry st queue
    let (_, st, tr) := createRpcQueue cfg st queue
    let corrId := toString st.uuidCounter
    let st := { st with uuidCounter := st.uuidCounter + 1 }
    let options := { options with
      correlationId := some corrId,
      replyTo := respQueueOf st queue }
    let (_, sendTr) := publishOrSendToQueue queue msg options
    let st := insertPending st queue corrId
    (.rpcPending corrId, st, tr ++ sendTr ++ [.insertPending queue corrId])
  else
    let (ack, sendTr) := publishOrSendToQueue queue msg options
    (.sendAck ack, st, sendTr)

/-- `if (!msg) msg = null` — a falsy payload is replaced by the explicit null
marker before encoding. -/
def normalizeMsg (msg : JsValue) : JsValue :=
  if msg.truthy then msg else .jsNull

/-- `options = options || { persistent: true, durable: true }` — defaults used
when the caller supplied no options object. -/
def defaultOptions (options : Option Options) : Options :=
  options.getD { persistent := some true, durable := some true }

/-- `produce(queue, msg, options)`: acquire the channel, normalize the payload,
default the options, log the outbound payload, encode and delegate to
`checkRpc`; on any rejection log the error, wait the configured delay and
retry the whole call with the closure's (by then normalized) arguments.
`outcomes` schedules, per attempt, whether the attempt's rejection fires
(`false`) or the attempt resolves (`true`); recursion is structural on it, and
an exhausted schedule leaves the promise pending (`none`) — the catch clause
never re-raises, so no rejection ever reaches the caller. -/
def produce (c : Codec) (cfg : Config) (outcomes : List Bool)
    (st : ProducerState) (queue : String) (msg : JsValue)
    (options : Option Options) :
    Option CheckRpcResult × ProducerState × List Event :=
  match outcomes with
  | [] => (none, st, [])
  | ok :: rest =>
    let msg := normalizeMsg msg
    let options := defaultOptions options
    let infoTr : List Event := [.logInfo "amqp:producer" ("[" ++ queue ++ "] > ") msg]
    let (res, st, tr) := checkRpc cfg st queue (c.out msg options) options
    if ok then
      (some res, st, infoTr ++ tr)
    else
      let (r, st, retryTr) := produce c cfg rest st queue msg (some options)
      (r, st, infoTr ++ tr ++ [.logError, .wait cfg.timeout] ++ retryTr)

/-- The connection's `close` event: every registered listener runs — each one
clears the response-queue name of its destination — and one-shot listeners are
then deregistered (listeners added with `addListener` stay). -/
def emitClose (st : ProducerState) : ProducerState :=
  let st := st.closeListeners.foldl
    (fun s l => setEntryQueue s l.queue none) st
  { st with closeListeners := st.closeListeners.filter (fun l => !l.once) }

/-- The index of the first event satisfying `p`, if any. -/
def firstIdx (p : Event → Bool) : List Event → Option Nat
  | [] => none
  | e :: tl => if p e then some 0 else (firstIdx p tl).map (· + 1)

/-- The event is a queue declaration (`channel.assertQueue`). -/
def Event.isAssert : Event → Bool
  | .assertQueue _ _ _ => true
  | _ => false

/-- A routed send carries `persistent = some true`; vacuously true of any
other event. -/
def sendPersistentTrue (e : Event) : Bool :=
  match e.sendOptions with
  | some o => decide (o.persistent = some true)
  | none => true

/-! ### Concrete fixtures for witnesses and counterexamples -/

/-- A concrete connection configuration. -/
def cfgEx : Config := { hostname := "gateway-http", timeout := 100 }

/-- A concrete codec. -/
def codecEx : Codec :=
  { out := fun _ _ => [7], decode := fun _ => .obj [("op", .str "pong")] }

/-- A concrete registry state with one destination whose response queue is
live and one in-flight correlation id. -/
def stEx : ProducerState :=
  { amqpRPCQueues :=
      [("service-oauth",
        { queue := some "service-oauth:gateway-http:res", pending := ["abc"] })],
    closeListeners := [⟨"service-oauth", false⟩],
    uuidCounter := 1 }

/-- A concrete reply message carrying the in-flight correlation id. -/
def replyEx : RawMessage :=
  { properties := { correlationId := some "abc" }, content := [7] }

/-- A concrete registry state whose entry for `"svc"` exists but has no
response queue yet (the state `checkRpc` hands to `createRpcQueue` on the
first RPC produce). -/
def stFresh : ProducerState := setEntry {} "svc" {}

/-- The registry state right after the first response-queue creation for
`"svc"`. -/
def stC6 : ProducerState := (createRpcQueue cfgEx stFresh "svc").2.1

/-! ### Helper lemmas about the registry operations -/

theorem find?_updateAssoc_self (l : List (String × RpcEntry)) (q : String)
    (e : RpcEntry) :
    (updateAssoc l q e).find? (fun p => p.1 == q) = some (q, e) := by
  induction l with
  | nil => simp [updateAssoc]
  | cons hd tl ih =>
    obtain ⟨k, v⟩ := hd
    by_cases h : k = q
    · subst h; simp [updateAssoc]
    · simp [updateAssoc, h, List.find?_cons, ih]

theorem find?_updateAssoc_ne (l : List (String × RpcEntry)) (q k : String)
    (e : RpcEntry) (h : k ≠ q) :
    (updateAssoc l q e).find? (fun p => p.1 == k) =
      l.find? (fun p => p.1 == k) := by
  induction l with
  | nil =>
    have hqk : (q == k) = false := beq_eq_false_iff_ne.mpr (Ne.symm h)
    simp [updateAssoc, List.find?, hqk]
  | cons hd tl ih =>
    obtain ⟨k2, v⟩ := hd
    by_cases h2 : k2 = q
    · subst h2
      simp [updateAssoc, List.find?_cons, (Ne.symm h)]
    · simp [updateAssoc, h2, List.find?_cons, ih]

theorem lookupEntry_setEntry_self (st : ProducerState) (q : String)
    (e : RpcEntry) : lookupEntry (setEntry st q e) q = some e := by
  simp [lookupEntry, setEntry, find?_updateAssoc_self]

theorem lookupEntry_setEntry_ne (st : ProducerState) (q k : String)
    (e : RpcEntry) (h : k ≠ q) :
    lookupEntry (setEntry st q e) k = lookupEntry st k := by
  simp [lookupEntry, setEntry, find?_updateAssoc_ne _ _ _ _ h]

theorem entryOf_setEntry_self (st : ProducerState) (q : String) (e : RpcEntry) :
    entryOf (setEntry st q e) q = e := by
  simp [entryOf, lookupEntry_setEntry_self]

theorem entryOf_setEntry_ne (st : ProducerState) (q k : String) (e : RpcEntry)
    (h : k ≠ q) : entryOf (setEntry st q e) k = entryOf st k := by
  simp [entryOf, lookupEntry_setEntry_ne _ _ _ _ h]

theorem pendingOf_removePending (st : ProducerState) (q cid : String) :
    pendingOf (removePending st q cid) q = (pendingOf st q).erase cid := by
  simp [removePending, pendingOf, entryOf_setEntry_self]

theorem respQueueOf_removePending (st : ProducerState) (q cid : String) :
    respQueueOf (removePending st q cid) q = respQueueOf st q := by
  simp [removePending, respQueueOf, entryOf_setEntry_self]

theorem pendingOf_insertPending (st : ProducerState) (q cid : String) :
    pendingOf (insertPending st q cid) q =
      if cid ∈ pendingOf st q then pendingOf st q else cid :: pendingOf st q := by
  simp [insertPending, pendingOf, entryOf_setEntry_self]

theorem mem_pendingOf_insertPending (st : ProducerState) (q cid : String) :
    cid ∈ pendingOf (insertPending st q cid) q := by
  rw [pendingOf_insertPending]
  by_cases h : cid ∈ pendingOf st q <;> simp [h]

/-! ### Helper lemmas about traces -/

theorem Event.isErr_of_isSend (e : Event) (h : e.isSend = true) :
    e.isErr = false := by cases e <;> simp_all [Event.isSend, Event.isErr]

theorem Event.isWait_of_isSend (e : Event) (h : e.isSend = true) :
    e.isWait = false := by cases e <;> simp_all [Event.isSend, Event.isWait]

theorem Event.isInsert_of_isSend (e : Event) (h : e.isSend = true) :
    e.isInsert = false := by cases e <;> simp_all [Event.isSend, Event.isInsert]

/-- `publishOrSendToQueue` always resolves `true` and emits exactly one routed
send, carrying the given buffer and options. -/
theorem publishOrSendToQueue_single (q : String) (msg : Buffer) (o : Options) :
    ∃ e, publishOrSendToQueue q msg o = (true, [e]) ∧ e.isSend = true ∧
      e.sendBuffer = some msg ∧ e.sendOptions = some o := by
  unfold publishOrSendToQueue
  rcases hrk : o.routingKey with _ | rk
  · exact ⟨.sendToQueue q msg o, rfl, rfl, rfl, rfl⟩
  · by_cases h : rk = ""
    · subst h
      exact ⟨.sendToQueue q msg o, by simp, rfl, rfl, rfl⟩
    · refine ⟨.publish q rk msg o, by simp [h], rfl, rfl, rfl⟩

theorem closeListeners_setEntry (st : ProducerState) (q : String)
    (e : RpcEntry) : (setEntry st q e).closeListeners = st.closeListeners := rfl

theorem closeListeners_setEntryQueue (st : ProducerState) (q : String)
    (v : Option String) :
    (setEntryQueue st q v).closeListeners = st.closeListeners := by
  unfold setEntryQueue
  split <;> rfl

theorem uuidCounter_setEntry (st : ProducerState) (q : String) (e : RpcEntry) :
    (setEntry st q e).uuidCounter = st.uuidCounter := rfl

theorem uuidCounter_setEntryQueue (st : ProducerState) (q : String)
    (v : Option String) :
    (setEntryQueue st q v).uuidCounter = st.uuidCounter := by
  unfold setEntryQueue
  split <;> rfl

/-- The trace of `createRpcQueue` is either empty (response queue already
cached) or the assert / listener-registration / consume prefix; it never
contains a send, an error log, a wait or a pending-insertion, and it leaves
`uuidCounter` unchanged. -/
theorem createRpcQueue_shape (cfg : Config) (st : ProducerState) (q : String) :
    (respQueueOf st q).isSome ∧
      createRpcQueue cfg st q = (none, st, []) ∨
    (respQueueOf st q) = none ∧
      createRpcQueue cfg st q =
        (some q,
         { setEntryQueue st q (some (q ++ ":" ++ cfg.hostname ++ ":res")) with
           closeListeners := st.closeListeners ++ [⟨q, false⟩] },
         [.assertQueue (q ++ ":" ++ cfg.hostname ++ ":res") true true,
          .addCloseListener q false,
          .consume (q ++ ":" ++ cfg.hostname ++ ":res") true]) := by
  rcases hq : (entryOf st q).queue with _ | qn
  · right
    refine ⟨hq, ?_⟩
    simp [createRpcQueue, hq, closeListeners_setEntryQueue]
  · left
    refine ⟨by simp [respQueueOf, hq], ?_⟩
    simp [createRpcQueue, hq]

theorem uuidCounter_createRpcQueue (cfg : Config) (st : ProducerState)
    (q : String) :
    (createRpcQueue cfg st q).2.1.uuidCounter = st.uuidCounter := by
  rcases createRpcQueue_shape cfg st q with ⟨_, h⟩ | ⟨_, h⟩ <;>
    simp [h, uuidCounter_setEntryQueue]

theorem uuidCounter_ensureEntry (st : ProducerState) (q : String) :
    (ensureEntry st q).uuidCounter = st.uuidCounter := by
  unfold ensureEntry
  split <;> simp [setEntry]

/-- Unfolding of the RPC branch of `checkRpc`: the trace is the
`createRpcQueue` trace, then the single routed send (already stamped with the
generated correlation id and the cached reply-queue name), then the storage of
the pending deferred; the resolution value is the deferred under that id. -/
theorem checkRpc_rpc_eq (cfg : Config) (st : ProducerState) (q : String)
    (msg : Buffer) (o : Options) (h : o.rpc = true) :
    ∃ sendE,
      sendE.isSend = true ∧ sendE.sendBuffer = some msg ∧
      sendE.sendOptions = some { o with
        persistent := some true,
        correlationId := some (toString st.uuidCounter),
        replyTo := respQueueOf (createRpcQueue cfg (ensureEntry st q) q).2.1 q } ∧
      checkRpc cfg st q msg o =
        (.rpcPending (toString st.uuidCounter),
         insertPending
           { (createRpcQueue cfg (ensureEntry st q) q).2.1 with
             uuidCounter := st.uuidCounter + 1 } q (toString st.uuidCounter),
         (createRpcQueue cfg (ensureEntry st q) q).2.2 ++
           [sendE, .insertPending q (toString st.uuidCounter)]) := by
  have huu : (createRpcQueue cfg (ensureEntry st q) q).2.1.uuidCounter =
      st.uuidCounter := by
    rw [uuidCounter_createRpcQueue, uuidCounter_ensureEntry]
  obtain ⟨sendE, hps, hsend, hbuf, hopts⟩ := publishOrSendToQueue_single q msg
    { o with
      persistent := some true,
      correlationId := some (toString st.uuidCounter),
      replyTo := respQueueOf (createRpcQueue cfg (ensureEntry st q) q).2.1 q }
  refine ⟨sendE, hsend, hbuf, hopts, ?_⟩
  unfold checkRpc
  rcases hcr : createRpcQueue cfg (ensureEntry st q) q with ⟨r, stB, crTr⟩
  rw [hcr] at hps huu
  rw [h] at hps
  simp only [h, if_true]
  rw [hcr]
  rw [huu]
  simp only [respQueueOf, entryOf, lookupEntry] at hps ⊢
  rw [hps]
  simp

/-- Unfolding of the plain branch of `checkRpc`: a single routed send with
`persistent` forced, resolving with the channel's write result. -/
theorem checkRpc_plain_eq (cfg : Config) (st : ProducerState) (q : String)
    (msg : Buffer) (o : Options) (h : o.rpc = false) :
    ∃ sendE,
      sendE.isSend = true ∧ sendE.sendBuffer = some msg ∧
      sendE.sendOptions = some { o with persistent := some true } ∧
      checkRpc cfg st q msg o = (.sendAck true, st, [sendE]) := by
  obtain ⟨sendE, hps, hsend, hbuf, hopts⟩ := publishOrSendToQueue_single q msg
    { o with persistent := some true }
  refine ⟨sendE, hsend, hbuf, hopts, ?_⟩
  unfold checkRpc
  simp only [h] at hps ⊢
  simp [hps]

theorem createRpcQueue_trace_events (cfg : Config) (st : ProducerState)
    (q : String) :
    ∀ e ∈ (createRpcQueue cfg st q).2.2,
      e.isSend = false ∧ e.isErr = false ∧ e.isWait = false ∧
      e.sendBuffer = none ∧ e.sendOptions = none := by
  rcases createRpcQueue_shape cfg st q with ⟨_, h⟩ | ⟨_, h⟩ <;>
    simp [h, Event.isSend, Event.isErr, Event.isWait, Event.sendBuffer,
      Event.sendOptions]

/-- The trace of one `checkRpc` call contains no error log and no wait, sends
exactly one buffer — the encoded message it was given — and every send it
performs carries `persistent = some true`. -/
theorem checkRpc_trace_filters (cfg : Config) (st : ProducerState) (q : String)
    (msg : Buffer) (o : Options) :
    ((checkRpc cfg st q msg o).2.2).filter Event.isErr = [] ∧
    ((checkRpc cfg st q msg o).2.2).filter Event.isWait = [] ∧
    ((checkRpc cfg st q msg o).2.2).filterMap Event.sendBuffer = [msg] ∧
    ((checkRpc cfg st q msg o).2.2).all sendPersistentTrue = true := by
  by_cases ho : o.rpc = true
  · obtain ⟨sendE, hsend, hbuf, hopts, heq⟩ := checkRpc_rpc_eq cfg st q msg o ho
    have hcr := createRpcQueue_trace_events cfg (ensureEntry st q) q
    rw [heq]
    dsimp only
    refine ⟨?_, ?_, ?_, ?_⟩
    · rw [List.filter_append]
      rw [List.filter_eq_nil_iff.mpr (fun e he => by simp [(hcr e he).2.1])]
      cases sendE <;> simp_all [Event.isSend, Event.isErr]
    · rw [List.filter_append]
      rw [List.filter_eq_nil_iff.mpr (fun e he => by simp [(hcr e he).2.2.1])]
      cases sendE <;> simp_all [Event.isSend, Event.isWait]
    · rw [List.filterMap_append]
      rw [List.filterMap_eq_nil_iff.mpr (fun e he => (hcr e he).2.2.2.1)]
      cases sendE <;> simp_all [Event.isSend, Event.sendBuffer]
    · rw [List.all_append]
      have h1 : ((createRpcQueue cfg (ensureEntry st q) q).2.2).all
          sendPersistentTrue = true := by
        rw [List.all_eq_true]
        intro e he
        simp [sendPersistentTrue, (hcr e he).2.2.2.2]
      rw [h1]
      cases sendE <;>
        simp_all [Event.isSend, Event.sendOptions, sendPersistentTrue]
  · have ho2 : o.rpc = false := by simpa using ho
    obtain ⟨sendE, hsend, hbuf, hopts, heq⟩ := checkRpc_plain_eq cfg st q msg o ho2
    rw [heq]
    dsimp only
    refine ⟨?_, ?_, ?_, ?_⟩
    · simp [Event.isErr_of_isSend sendE hsend]
    · simp [Event.isWait_of_isSend sendE hsend]
    · simp [hbuf]
    · simp [sendPersistentTrue, hopts]

/-! ### Helper lemmas about the response-queue cache and close listeners -/

theorem respQueueOf_setEntryQueue_self (st : ProducerState) (q : String)
    (v : Option String) (e : RpcEntry) (h : lookupEntry st q = some e) :
    respQueueOf (setEntryQueue st q v) q = v := by
  simp [setEntryQueue, h, respQueueOf, entryOf_setEntry_self]

theorem respQueueOf_setEntryQueue_none_self (st : ProducerState) (q : String) :
    respQueueOf (setEntryQueue st q none) q = none := by
  unfold setEntryQueue
  rcases hl : lookupEntry st q with _ | e
  · simp [respQueueOf, entryOf, hl]
    rfl
  · simp [respQueueOf, entryOf_setEntry_self]

theorem respQueueOf_setEntryQueue_none (st : ProducerState) (q k : String)
    (h : respQueueOf st k = none) :
    respQueueOf (setEntryQueue st q none) k = none := by
  by_cases hqk : k = q
  · subst hqk
    exact respQueueOf_setEntryQueue_none_self st k
  · unfold setEntryQueue
    rcases hl : lookupEntry st q with _ | e
    · exact h
    · simpa [respQueueOf, entryOf, lookupEntry_setEntry_ne _ _ _ _ hqk] using h

theorem respQueueOf_foldl_clear_preserve (L : List CloseListener)
    (st : ProducerState) (k : String) (h : respQueueOf st k = none) :
    respQueueOf (L.foldl (fun s x => setEntryQueue s x.queue none) st) k =
      none := by
  induction L generalizing st with
  | nil => exact h
  | cons hd tl ih => exact ih _ (respQueueOf_setEntryQueue_none _ _ _ h)

theorem closeListeners_foldl_clear (L : List CloseListener)
    (st : ProducerState) :
    (L.foldl (fun s x => setEntryQueue s x.queue none) st).closeListeners =
      st.closeListeners := by
  induction L generalizing st with
  | nil => rfl
  | cons hd tl ih => rw [List.foldl_cons, ih, closeListeners_setEntryQueue]

/-! ### Claims -/

/-- C3: a reply whose correlation id has a pending entry resolves exactly that
waiter with the codec-decoded payload (the trace holds one resolution event,
for that id only, and the inbound log), the id is removed from the pending map
exactly once (it is gone afterwards, every other id is untouched), and a
second delivery of the same reply resolves nothing and changes nothing. -/
theorem c3_reply_resolves_waiter_exactly_once (c : Codec) (st : ProducerState)
    (q corrId : String) (m : RawMessage)
    (hc : m.properties.correlationId = some corrId)
    (hmem : corrId ∈ pendingOf st q)
    (hnd : (pendingOf st q).Nodup) :
    maybeAnswer c st q m =
      (removePending st q corrId,
       [.resolvePending q corrId (c.decode m),
        .logInfo "amqp:producer" ("[" ++ q ++ "] < ") (c.decode m)]) ∧
    corrId ∉ pendingOf (removePending st q corrId) q ∧
    (∀ c2, c2 ≠ corrId →
      (c2 ∈ pendingOf (removePending st q corrId) q ↔ c2 ∈ pendingOf st q)) ∧
    maybeAnswer c (removePending st q corrId) q m =
      (removePending st q corrId, []) := by
  have hrm : pendingOf (removePending st q corrId) q =
      (pendingOf st q).erase corrId := pendingOf_removePending st q corrId
  refine ⟨?_, ?_, ?_, ?_⟩
  · simp [maybeAnswer, hc, hmem]
  · rw [hrm]
    exact hnd.not_mem_erase
  · intro c2 hne
    rw [hrm]
    exact List.mem_erase_of_ne hne
  · have hnot : corrId ∉ pendingOf (removePending st q corrId) q := by
      rw [hrm]; exact hnd.not_mem_erase
    simp [maybeAnswer, hc, hnot]

/-- C3 witness: the concrete state `stEx` has `"abc"` pending for
`"service-oauth"`; the concrete reply resolves it. -/
theorem c3_reply_resolves_waiter_exactly_once_witness :
    maybeAnswer codecEx stEx "service-oauth" replyEx =
      (removePending stEx "service-oauth" "abc",
       [.resolvePending "service-oauth" "abc" (codecEx.decode replyEx),
        .logInfo "amqp:producer" "[service-oauth] < " (codecEx.decode replyEx)]) ∧
    "abc" ∉ pendingOf (removePending stEx "service-oauth" "abc") "service-oauth" ∧
    (∀ c2, c2 ≠ "abc" →
      (c2 ∈ pendingOf (removePending stEx "service-oauth" "abc") "service-oauth" ↔
        c2 ∈ pendingOf stEx "service-oauth")) ∧
    maybeAnswer codecEx (removePending stEx "service-oauth" "abc") "service-oauth"
      replyEx = (removePending stEx "service-oauth" "abc", []) :=
  c3_reply_resolves_waiter_exactly_once codecEx stEx "service-oauth" "abc"
    replyEx rfl (by decide) (by decide)

/-- C8: a reply whose correlation id is missing, or has no matching pending
entry, leaves the registry state unchanged, resolves no waiter and logs
nothing — `maybeAnswer` returns the state as is with an empty trace. -/
theorem c8_unmatched_reply_ignored (c : Codec) (st : ProducerState)
    (q : String) (m : RawMessage)
    (h : ∀ corrId, m.properties.correlationId = some corrId →
      corrId ∉ pendingOf st q) :
    maybeAnswer c st q m = (st, []) := by
  unfold maybeAnswer
  rcases hc : m.properties.correlationId with _ | corrId
  · rfl
  · simp [h corrId hc]

/-- C8 witness: a reply with no correlation id, and one with an unknown
correlation id, are both ignored on the concrete state. -/
theorem c8_unmatched_reply_ignored_witness :
    maybeAnswer codecEx stEx "service-oauth"
        { properties := { correlationId := none }, content := [7] } =
      (stEx, []) ∧
    maybeAnswer codecEx stEx "service-oauth"
        { properties := { correlationId := some "zz" }, content := [7] } =
      (stEx, []) :=
  ⟨c8_unmatched_reply_ignored codecEx stEx "service-oauth" _
      (fun _ hc => Option.noConfusion hc),
   c8_unmatched_reply_ignored codecEx stEx "service-oauth" _
      (fun corrId hc => by
        injection hc with h2
        subst h2
        decide)⟩

/-- C10: every falsy payload — `undefined`, `null`, `false`, `0`, `NaN`, the
empty string — is replaced by the explicit null marker before encoding, so a
produce call with a falsy payload behaves exactly like one with `null`. -/
theorem c10_falsy_payload_becomes_null (c : Codec) (cfg : Config)
    (outcomes : List Bool) (st : ProducerState) (q : String) (msg : JsValue)
    (options : Option Options) (h : msg.falsy = true) :
    normalizeMsg msg = .jsNull ∧
    produce c cfg outcomes st q msg options =
      produce c cfg outcomes st q .jsNull options ∧
    ([JsValue.undef, .jsNull, .bool false, .num 0, .nan, .str ""].all
      JsValue.falsy) = true := by
  have hn : normalizeMsg msg = .jsNull := by
    have ht : msg.truthy = false := by
      simpa [JsValue.falsy] using h
    simp [normalizeMsg, ht]
  refine ⟨hn, ?_, by decide⟩
  cases outcomes with
  | nil => rfl
  | cons ok rest =>
    simp only [produce, hn]
    rfl

/-- C10 witness: a produce call with payload `0` behaves exactly like one with
`null`. -/
theorem c10_falsy_payload_becomes_null_witness :
    normalizeMsg (.num 0) = .jsNull ∧
    produce codecEx cfgEx [true] {} "queueName" (.num 0) none =
      produce codecEx cfgEx [true] {} "queueName" .jsNull none ∧
    ([JsValue.undef, .jsNull, .bool false, .num 0, .nan, .str ""].all
      JsValue.falsy) = true :=
  c10_falsy_payload_becomes_null codecEx cfgEx [true] {} "queueName" (.num 0)
    none (by decide)

/-- C2 counterexample: with the response queue already cached, the call
resolves immediately but with no value (`Promise.resolve()` carries
`undefined`), not with the stored queue name as the claim states. -/
theorem c2_cached_resolves_undefined_counterexample :
    respQueueOf stEx "service-oauth" = some "service-oauth:gateway-http:res" ∧
    (createRpcQueue cfgEx stEx "service-oauth").1 = none ∧
    (createRpcQueue cfgEx stEx "service-oauth").1 ≠
      some "service-oauth:gateway-http:res" := by
  refine ⟨rfl, rfl, by decide⟩

/-- C2 (amended): `createRpcQueue` is idempotent — when the registry entry
already holds a response-queue name the call resolves immediately with no
value and performs no queue declaration (and no other network call or state
change); calling it twice without an intervening channel close declares the
queue exactly once, the second call resolving from the cache. -/
theorem c2_createRpcQueue_idempotent (cfg : Config) (st : ProducerState)
    (q : String) (e : RpcEntry) (h1 : lookupEntry st q = some e)
    (h2 : e.queue = none) :
    (∀ st2 qn, respQueueOf st2 q = some qn →
      createRpcQueue cfg st2 q = (none, st2, [])) ∧
    createRpcQueue cfg (createRpcQueue cfg st q).2.1 q =
      (none, (createRpcQueue cfg st q).2.1, []) ∧
    ((createRpcQueue cfg st q).2.2 ++
        (createRpcQueue cfg (createRpcQueue cfg st q).2.1 q).2.2).countP
      Event.isAssert = 1 := by
  have hcached : ∀ st2 qn, respQueueOf st2 q = some qn →
      createRpcQueue cfg st2 q = (none, st2, []) := by
    intro st2 qn h
    have h2 : (entryOf st2 q).queue = some qn := h
    simp [createRpcQueue, h2]
  have hq : (entryOf st q).queue = none := by
    simp [entryOf, h1, h2]
  have hfresh :
      createRpcQueue cfg st q =
        (some q,
         { setEntryQueue st q (some (q ++ ":" ++ cfg.hostname ++ ":res")) with
           closeListeners := st.closeListeners ++ [⟨q, false⟩] },
         [.assertQueue (q ++ ":" ++ cfg.hostname ++ ":res") true true,
          .addCloseListener q false,
          .consume (q ++ ":" ++ cfg.hostname ++ ":res") true]) := by
    rcases createRpcQueue_shape cfg st q with ⟨hs, _⟩ | ⟨_, hres⟩
    · rw [show respQueueOf st q = (entryOf st q).queue from rfl, hq] at hs
      exact absurd hs (by simp)
    · exact hres
  have hafter : respQueueOf (createRpcQueue cfg st q).2.1 q =
      some (q ++ ":" ++ cfg.hostname ++ ":res") := by
    rw [hfresh]
    show respQueueOf
      (setEntryQueue st q (some (q ++ ":" ++ cfg.hostname ++ ":res"))) q = _
    exact respQueueOf_setEntryQueue_self st q _ e h1
  have hsecond := hcached (createRpcQueue cfg st q).2.1 _ hafter
  refine ⟨hcached, hsecond, ?_⟩
  rw [hsecond, hfresh]
  simp [Event.isAssert]

/-- C2 witness: on the concrete fresh entry for `"svc"`, the cached branch
resolves immediately with no events, the second call is a no-op, and the two
calls together declare the queue exactly once. -/
theorem c2_createRpcQueue_idempotent_witness :
    (∀ st2 qn, respQueueOf st2 "svc" = some qn →
      createRpcQueue cfgEx st2 "svc" = (none, st2, [])) ∧
    createRpcQueue cfgEx (createRpcQueue cfgEx stFresh "svc").2.1 "svc" =
      (none, (createRpcQueue cfgEx stFresh "svc").2.1, []) ∧
    ((createRpcQueue cfgEx stFresh "svc").2.2 ++
        (createRpcQueue cfgEx (createRpcQueue cfgEx stFresh "svc").2.1
          "svc").2.2).countP Event.isAssert = 1 :=
  c2_createRpcQueue_idempotent cfgEx stFresh "svc" {} rfl rfl

/-- C6 counterexample: the clearing listener registered by `createRpcQueue`
is added with `addListener` (a persistent listener), not as a one-time
listener — after the close event fires it is still registered. -/
theorem c6_listener_not_one_time_counterexample :
    stC6.closeListeners = [⟨"svc", false⟩] ∧
    (emitClose stC6).closeListeners = [⟨"svc", false⟩] ∧
    respQueueOf (emitClose stC6) "svc" = none := by
  refine ⟨rfl, rfl, rfl⟩

/-- C6 (amended): when the channel close event fires, the cached
response-queue name of every destination with a registered clearing listener
is cleared to unset, and the next RPC produce on that destination performs a
fresh queue declaration; but the clearing listener is persistent
(`addListener`, not a one-time registration): it remains registered after the
event fires. -/
theorem c6_close_clears_cached_queues (cfg : Config) (st : ProducerState)
    (h : ∀ l ∈ st.closeListeners, l.once = false) :
    (∀ l ∈ st.closeListeners, respQueueOf (emitClose st) l.queue = none) ∧
    (emitClose st).closeListeners = st.closeListeners ∧
    (∀ l ∈ st.closeListeners,
      ((createRpcQueue cfg (emitClose st) l.queue).2.2.countP
        Event.isAssert) = 1) := by
  have hclear : ∀ l ∈ st.closeListeners,
      respQueueOf (emitClose st) l.queue = none := by
    intro l hl
    show respQueueOf
      { st.closeListeners.foldl (fun s x => setEntryQueue s x.queue none) st with
        closeListeners := _ } l.queue = none
    have : ∀ (L : List CloseListener) (st0 : ProducerState), l ∈ L →
        respQueueOf (L.foldl (fun s x => setEntryQueue s x.queue none) st0)
          l.queue = none := by
      intro L
      induction L with
      | nil => intro st0 hl2; cases hl2
      | cons hd tl ih =>
        intro st0 hl2
        rcases List.mem_cons.mp hl2 with hl2 | hl2
        · subst hl2
          rw [List.foldl_cons]
          exact respQueueOf_foldl_clear_preserve tl _ _
            (respQueueOf_setEntryQueue_none_self st0 l.queue)
        · exact ih _ hl2
    exact this st.closeListeners st hl
  refine ⟨hclear, ?_, ?_⟩
  · show (st.closeListeners.foldl (fun s x => setEntryQueue s x.queue none)
        st).closeListeners.filter (fun l => !l.once) = st.closeListeners
    rw [closeListeners_foldl_clear]
    exact List.filter_eq_self.mpr (fun l hl => by simp [h l hl])
  · intro l hl
    have hq : (entryOf (emitClose st) l.queue).queue = none := hclear l hl
    simp [createRpcQueue, hq, Event.isAssert]

/-- C6 witness: on the concrete post-creation state `stC6` the close event
clears the cache, keeps the listener and the next creation re-declares. -/
theorem c6_close_clears_cached_queues_witness :
    (∀ l ∈ stC6.closeListeners, respQueueOf (emitClose stC6) l.queue = none) ∧
    (emitClose stC6).closeListeners = stC6.closeListeners ∧
    (∀ l ∈ stC6.closeListeners,
      ((createRpcQueue cfgEx (emitClose stC6) l.queue).2.2.countP
        Event.isAssert) = 1) :=
  c6_close_clears_cached_queues cfgEx stC6 (by
    intro l hl
    rw [show stC6.closeListeners = [(⟨"svc", false⟩ : CloseListener)] from rfl]
      at hl
    rcases List.mem_singleton.mp hl with rfl
    rfl)

/-- C7 counterexample: a caller-supplied `persistent: false` does not control
broker-side persistence — the message is sent with `persistent` forced to
`true` (`checkRpc` overwrites the field unconditionally). -/
theorem c7_caller_persistent_ignored_counterexample :
    (({ persistent := some false } : Options)).persistent = some false ∧
    ((produce codecEx cfgEx [true] {} "queueName" (.str "m")
        (some { persistent := some false })).2.2.filterMap
      Event.sendOptions).map Options.persistent = [some true] := by
  refine ⟨rfl, rfl⟩

/-- C7 (amended): every message sent by a produce call carries
`persistent = true` regardless of the caller-supplied value (`checkRpc`
forces the flag unconditionally); the defaults
`{persistent: true, durable: true}` apply exactly when the caller supplies no
options object. -/
theorem c7_persistent_always_forced (c : Codec) (cfg : Config)
    (outcomes : List Bool) (st : ProducerState) (q : String) (msg : JsValue)
    (options : Option Options) :
    ((produce c cfg outcomes st q msg options).2.2.all
      sendPersistentTrue) = true ∧
    defaultOptions none =
      { persistent := some true, durable := some true } ∧
    (∀ o : Options, defaultOptions (some o) = o) := by
  refine ⟨?_, rfl, fun o => rfl⟩
  induction outcomes generalizing st msg options with
  | nil => rfl
  | cons ok rest ih =>
    have hck := (checkRpc_trace_filters cfg st q
      (c.out (normalizeMsg msg) (defaultOptions options))
      (defaultOptions options)).2.2.2
    cases ok with
    | true =>
      simp only [produce]
      rcases hc : checkRpc cfg st q (c.out (normalizeMsg msg) (defaultOptions options))
        (defaultOptions options) with ⟨r, st2, tr⟩
      rw [hc] at hck
      simp [List.all_append, hck, sendPersistentTrue, Event.sendOptions]
    | false =>
      simp only [produce]
      rcases hc : checkRpc cfg st q (c.out (normalizeMsg msg) (defaultOptions options))
        (defaultOptions options) with ⟨r, st2, tr⟩
      rw [hc] at hck
      rcases hp : produce c cfg rest st2 q (normalizeMsg msg)
          (some (defaultOptions options)) with ⟨r2, st3, tr2⟩
      have ih2 := ih st2 (normalizeMsg msg) (some (defaultOptions options))
      rw [hp] at ih2
      simp [List.all_append, hck, ih2, sendPersistentTrue, Event.sendOptions]

/-- C1 counterexample: on a concrete first RPC produce, the routed send sits
at index 3 of the `checkRpc` trace and the pending-map insertion at index 4 —
the pending handle is not inserted before the send is performed, contrary to
the claim. -/
theorem c1_insert_before_send_counterexample :
    firstIdx Event.isSend
      (checkRpc cfgEx {} "service-oauth" [7] { rpc := true }).2.2 = some 3 ∧
    firstIdx Event.isInsert
      (checkRpc cfgEx {} "service-oauth" [7] { rpc := true }).2.2 = some 4 ∧
    ¬ (4 < 3) := by
  refine ⟨rfl, rfl, by decide⟩

/-- C1 (amended): for every RPC produce, the routed send is performed first
and the pending handle stored under the fresh correlation id immediately
after, both inside the same synchronous step of `checkRpc`: the send occurs
strictly before the insertion in the trace, and by the time `checkRpc`
returns — hence before any reply dispatch can be matched — the correlation id
is registered in the pending map. -/
theorem c1_insert_follows_send_same_step (cfg : Config) (st : ProducerState)
    (q : String) (msg : Buffer) (o : Options) (h : o.rpc = true) :
    ∃ i j,
      firstIdx Event.isSend (checkRpc cfg st q msg o).2.2 = some i ∧
      firstIdx Event.isInsert (checkRpc cfg st q msg o).2.2 = some j ∧
      i < j ∧
      (checkRpc cfg st q msg o).1 = .rpcPending (toString st.uuidCounter) ∧
      toString st.uuidCounter ∈ pendingOf (checkRpc cfg st q msg o).2.1 q := by
  obtain ⟨sendE, hsend, hbuf, hopts, heq⟩ := checkRpc_rpc_eq cfg st q msg o h
  have hmem : toString st.uuidCounter ∈
      pendingOf (checkRpc cfg st q msg o).2.1 q := by
    rw [heq]
    exact mem_pendingOf_insertPending _ _ _
  rcases createRpcQueue_shape cfg (ensureEntry st q) q with ⟨_, hcr⟩ | ⟨_, hcr⟩
  · refine ⟨0, 1, ?_, ?_, by omega, by rw [heq], hmem⟩
    · rw [heq, hcr]
      cases sendE <;> simp_all [firstIdx, Event.isSend]
    · rw [heq, hcr]
      cases sendE <;> simp_all [firstIdx, Event.isSend, Event.isInsert]
  · refine ⟨3, 4, ?_, ?_, by omega, by rw [heq], hmem⟩
    · rw [heq, hcr]
      cases sendE <;> simp_all [firstIdx, Event.isSend]
    · rw [heq, hcr]
      cases sendE <;> simp_all [firstIdx, Event.isSend, Event.isInsert]

/-- C1 witness: the amended ordering on a concrete first RPC produce. -/
theorem c1_insert_follows_send_same_step_witness :
    ∃ i j,
      firstIdx Event.isSend
        (checkRpc cfgEx {} "service-oauth" [7] { rpc := true }).2.2 = some i ∧
      firstIdx Event.isInsert
        (checkRpc cfgEx {} "service-oauth" [7] { rpc := true }).2.2 = some j ∧
      i < j ∧
      (checkRpc cfgEx {} "service-oauth" [7] { rpc := true }).1 =
        .rpcPending (toString (({} : ProducerState)).uuidCounter) ∧
      toString (({} : ProducerState)).uuidCounter ∈
        pendingOf (checkRpc cfgEx {} "service-oauth" [7]
          { rpc := true }).2.1 "service-oauth" :=
  c1_insert_follows_send_same_step cfgEx {} "service-oauth" [7]
    { rpc := true } rfl

/-- C9: on the first RPC produce for a destination (no registry entry yet),
the reply queue named destination + hostname suffix is declared durable and
exclusive, a continuous `noAck` consumer is started on it, and only then is
the request sent, stamped with the freshly generated `correlationId` (no id
is pending yet for the destination) and with `replyTo` set to that queue
name. -/
theorem c9_first_rpc_setup (cfg : Config) (st : ProducerState) (q : String)
    (msg : Buffer) (o : Options) (h1 : lookupEntry st q = none)
    (h2 : o.rpc = true) :
    ∃ sendE,
      (checkRpc cfg st q msg o).2.2 =
        [.assertQueue (q ++ ":" ++ cfg.hostname ++ ":res") true true,
         .addCloseListener q false,
         .consume (q ++ ":" ++ cfg.hostname ++ ":res") true,
         sendE,
         .insertPending q (toString st.uuidCounter)] ∧
      sendE.isSend = true ∧
      sendE.sendBuffer = some msg ∧
      sendE.sendOptions.map Options.correlationId =
        some (some (toString st.uuidCounter)) ∧
      sendE.sendOptions.map Options.replyTo =
        some (some (q ++ ":" ++ cfg.hostname ++ ":res")) ∧
      (checkRpc cfg st q msg o).1 = .rpcPending (toString st.uuidCounter) ∧
      pendingOf st q = [] := by
  obtain ⟨sendE, hsend, hbuf, hopts, heq⟩ := checkRpc_rpc_eq cfg st q msg o h2
  have hens : ensureEntry st q = setEntry st q {} := by
    simp [ensureEntry, h1]
  have hq : (entryOf (ensureEntry st q) q).queue = none := by
    rw [hens, entryOf_setEntry_self]
  have hcr : createRpcQueue cfg (ensureEntry st q) q =
      (some q,
       { setEntryQueue (ensureEntry st q) q
           (some (q ++ ":" ++ cfg.hostname ++ ":res")) with
         closeListeners := (ensureEntry st q).closeListeners ++ [⟨q, false⟩] },
       [.assertQueue (q ++ ":" ++ cfg.hostname ++ ":res") true true,
        .addCloseListener q false,
        .consume (q ++ ":" ++ cfg.hostname ++ ":res") true]) := by
    rcases createRpcQueue_shape cfg (ensureEntry st q) q with ⟨hs, _⟩ | ⟨_, hres⟩
    · rw [show respQueueOf (ensureEntry st q) q =
          (entryOf (ensureEntry st q) q).queue from rfl, hq] at hs
      exact absurd hs (by simp)
    · exact hres
  have hresp : respQueueOf (createRpcQueue cfg (ensureEntry st q) q).2.1 q =
      some (q ++ ":" ++ cfg.hostname ++ ":res") := by
    rw [hcr]
    show respQueueOf (setEntryQueue (ensureEntry st q) q
      (some (q ++ ":" ++ cfg.hostname ++ ":res"))) q = _
    refine respQueueOf_setEntryQueue_self _ _ _ {} ?_
    rw [hens]
    exact lookupEntry_setEntry_self st q {}
  rw [hresp] at hopts
  refine ⟨sendE, ?_, hsend, hbuf, ?_, ?_, by rw [heq], ?_⟩
  · rw [heq, hcr]
    simp
  · rw [hopts]
    rfl
  · rw [hopts]
    rfl
  · show (entryOf st q).pending = []
    simp [entryOf, h1]
    rfl

/-- C9 witness: the wire-level setup on a concrete first RPC produce. -/
theorem c9_first_rpc_setup_witness :
    ∃ sendE,
      (checkRpc cfgEx {} "service-oauth" [7] { rpc := true }).2.2 =
        [.assertQueue "service-oauth:gateway-http:res" true true,
         .addCloseListener "service-oauth" false,
         .consume "service-oauth:gateway-http:res" true,
         sendE,
         .insertPending "service-oauth" "0"] ∧
      sendE.isSend = true ∧
      sendE.sendBuffer = some [7] ∧
      sendE.sendOptions.map Options.correlationId = some (some "0") ∧
      sendE.sendOptions.map Options.replyTo =
        some (some "service-oauth:gateway-http:res") ∧
      (checkRpc cfgEx {} "service-oauth" [7] { rpc := true }).1 =
        .rpcPending "0" ∧
      pendingOf {} "service-oauth" = [] :=
  c9_first_rpc_setup cfgEx {} "service-oauth" [7] { rpc := true } rfl rfl

theorem normalizeMsg_idem (m : JsValue) :
    normalizeMsg (normalizeMsg m) = normalizeMsg m := by
  cases h : m.truthy
  · have h1 : normalizeMsg m = .jsNull := by simp [normalizeMsg, h]
    rw [h1]
    rfl
  · have h1 : normalizeMsg m = m := by simp [normalizeMsg, h]
    rw [h1]
    exact h1

/-- C4: when the first `N` attempts of a produce call fail with a transient
error and attempt `N + 1` succeeds, the call resolves, exactly `N` failure
log events are recorded, the configured constant delay elapses exactly once
between each pair of consecutive attempts (`N` waits of `config.timeout`),
and every attempt sends the identical encoded payload — in particular attempt
`N + 1` sends exactly what attempt `1` sent, the retry closure never mutating
the message. -/
theorem c4_retry_content_stable (c : Codec) (cfg : Config) (N : Nat)
    (st : ProducerState) (q : String) (msg : JsValue)
    (options : Option Options) :
    (produce c cfg (List.replicate N false ++ [true]) st q msg
      options).1.isSome = true ∧
    (produce c cfg (List.replicate N false ++ [true]) st q msg
      options).2.2.filter Event.isErr = List.replicate N .logError ∧
    (produce c cfg (List.replicate N false ++ [true]) st q msg
      options).2.2.filter Event.isWait =
      List.replicate N (.wait cfg.timeout) ∧
    (produce c cfg (List.replicate N false ++ [true]) st q msg
      options).2.2.filterMap Event.sendBuffer =
      List.replicate (N + 1)
        (c.out (normalizeMsg msg) (defaultOptions options)) := by
  induction N generalizing st msg options with
  | zero =>
    obtain ⟨he, hw, hb, _⟩ := checkRpc_trace_filters cfg st q
      (c.out (normalizeMsg msg) (defaultOptions options))
      (defaultOptions options)
    rcases hc : checkRpc cfg st q (c.out (normalizeMsg msg)
        (defaultOptions options)) (defaultOptions options) with ⟨r, st2, tr⟩
    rw [hc] at he hw hb
    simp only [List.replicate, List.nil_append, produce, hc]
    refine ⟨rfl, ?_, ?_, ?_⟩
    · simp [he, Event.isErr]
    · simp [hw, Event.isWait]
    · simp [hb, Event.sendBuffer]
  | succ N ih =>
    rw [List.replicate_succ, List.cons_append]
    obtain ⟨he, hw, hb, _⟩ := checkRpc_trace_filters cfg st q
      (c.out (normalizeMsg msg) (defaultOptions options))
      (defaultOptions options)
    rcases hc : checkRpc cfg st q (c.out (normalizeMsg msg)
        (defaultOptions options)) (defaultOptions options) with ⟨r, st2, tr⟩
    rw [hc] at he hw hb
    obtain ⟨ih1, ih2, ih3, ih4⟩ := ih st2 (normalizeMsg msg)
      (some (defaultOptions options))
    rw [normalizeMsg_idem] at ih4
    have hdo : defaultOptions (some (defaultOptions options)) =
        defaultOptions options := rfl
    rw [hdo] at ih4
    rcases hp : produce c cfg (List.replicate N false ++ [true]) st2 q
        (normalizeMsg msg) (some (defaultOptions options)) with ⟨r2, st3, tr2⟩
    rw [hp] at ih1 ih2 ih3 ih4
    simp only [produce, hc, hp]
    refine ⟨ih1, ?_, ?_, ?_⟩
    · simp [List.filter_append, he, ih2, Event.isErr, List.replicate_succ]
    · simp [List.filter_append, hw, ih3, Event.isWait, List.replicate_succ]
    · simp [List.filterMap_append, hb, ih4, Event.sendBuffer,
        List.replicate_succ]

/-- C5: the produce promise never rejects — the result is an `Option` that is
`some` (settled) exactly when some attempt in the schedule succeeds, and every
failing attempt is absorbed locally: it contributes exactly one error log and
one constant configured delay before the operation is retried in full, with
no bound on the number of attempts (the schedule is arbitrary). -/
theorem c5_produce_never_rejects (c : Codec) (cfg : Config)
    (outcomes : List Bool) (st : ProducerState) (q : String) (msg : JsValue)
    (options : Option Options) :
    (produce c cfg outcomes st q msg options).1.isSome =
      outcomes.contains true ∧
    (produce c cfg outcomes st q msg options).2.2.filter Event.isErr =
      List.replicate (outcomes.takeWhile (fun b => !b)).length .logError ∧
    (produce c cfg outcomes st q msg options).2.2.filter Event.isWait =
      List.replicate (outcomes.takeWhile (fun b => !b)).length
        (.wait cfg.timeout) := by
  induction outcomes generalizing st msg options with
  | nil => refine ⟨rfl, rfl, rfl⟩
  | cons ok rest ih =>
    obtain ⟨he, hw, _, _⟩ := checkRpc_trace_filters cfg st q
      (c.out (normalizeMsg msg) (defaultOptions options))
      (defaultOptions options)
    rcases hc : checkRpc cfg st q (c.out (normalizeMsg msg)
        (defaultOptions options)) (defaultOptions options) with ⟨r, st2, tr⟩
    rw [hc] at he hw
    cases ok with
    | true =>
      simp only [produce, hc]
      refine ⟨by simp, ?_, ?_⟩
      · simp [he, Event.isErr, List.takeWhile]
      · simp [hw, Event.isWait, List.takeWhile]
    | false =>
      obtain ⟨ih1, ih2, ih3⟩ := ih st2 (normalizeMsg msg)
        (some (defaultOptions options))
      rcases hp : produce c cfg rest st2 q (normalizeMsg msg)
          (some (defaultOptions options)) with ⟨r2, st3, tr2⟩
      rw [hp] at ih1 ih2 ih3
      simp only [produce, hc, hp]
      refine ⟨by simpa using ih1, ?_, ?_⟩
      · simp [List.filter_append, he, ih2, Event.isErr, List.takeWhile,
          List.replicate_succ]
      · simp [List.filter_append, hw, ih3, Event.isWait, List.takeWhile,
          List.replicate_succ]

end RabbitLayer
